import Mathlib

/-! Verification development for the AI-Engineer automation core: the template
knowledge base (search / popularity / recommendation queries), the blueprint
generator's cost & ROI pipeline, the requirement-completeness assessment, and
the n8n workflow graph builder.  Every definition is a shallow embedding of the
corresponding TypeScript function; strings are modelled as lists of characters
(`Str`), JavaScript's in-place stable `Array.prototype.sort` as an insertion
sort that is stable by construction, exact float arithmetic on the small
integer inputs involved as integer / rational arithmetic, and the one use of
`Math.random()` as an explicit parameter carrying the sampled value. -/

set_option maxRecDepth 8000

namespace AIEng

/-! Section of basic string operations mirroring the JavaScript primitives. -/

/-- Strings, modelled as lists of characters. -/
abbrev Str := List Char

/-- Model of JavaScript `String.prototype.toLowerCase` (the sources only apply
it to ASCII text, where `Char.toLower` agrees with it). -/
def lower (s : Str) : Str := s.map Char.toLower

/-- Model of JavaScript `String.prototype.includes`: `needle` occurs as a
contiguous substring of `hay`. -/
def containsSub (hay needle : Str) : Bool :=
  hay.tails.any (fun t => needle.isPrefixOf t)

/-- Model of JavaScript `Math.round (a / b)` for integers with `b > 0`,
computed exactly: `⌊a/b + 1/2⌋ = ⌊(2a+b)/(2b)⌋` (floor division). -/
def intRoundDiv (a b : ℤ) : ℤ := Int.fdiv (2 * a + b) (2 * b)

/-- Model of JavaScript `Math.ceil (a / b)` for integers with `b > 0`,
computed exactly as `-⌊-a/b⌋`. -/
def intCeilDiv (a b : ℤ) : ℤ := -(Int.fdiv (-a) b)

/-! Section modelling JavaScript's `Array.prototype.sort` with the comparator
`(a, b) => key b - key a`, i.e. a STABLE sort descending by a numeric key.
Since every stable sorting algorithm yields the same output, an insertion sort
that is stable by construction is a faithful model. -/

/-- Insert `x` into `l` before the first element whose key is strictly below
`key x`; equal keys keep the existing element first, which together with
`sortDescBy` processing later elements first gives stability. -/
def insertDescBy (key : α → ℕ) (x : α) : List α → List α
  | [] => [x]
  | y :: ys => if key x ≥ key y then x :: y :: ys else y :: insertDescBy key x ys

/-- Stable sort, descending by `key`: model of `arr.sort((a, b) => key b - key a)`. -/
def sortDescBy (key : α → ℕ) : List α → List α
  | [] => []
  | x :: xs => insertDescBy key x (sortDescBy key xs)

theorem mem_insertDescBy (key : α → ℕ) (x : α) (l : List α) (z : α) :
    z ∈ insertDescBy key x l ↔ z = x ∨ z ∈ l := by
  induction l with
  | nil => simp [insertDescBy]
  | cons y ys ih =>
      by_cases h : key x ≥ key y
      · simp [insertDescBy, h]
      · simp only [insertDescBy, if_neg h, List.mem_cons, ih]
        tauto

theorem mem_sortDescBy (key : α → ℕ) (l : List α) (z : α) :
    z ∈ sortDescBy key l ↔ z ∈ l := by
  induction l with
  | nil => simp [sortDescBy]
  | cons y ys ih => simp [sortDescBy, mem_insertDescBy, ih]

theorem pairwise_insertDescBy (key : α → ℕ) (x : α) (l : List α)
    (h : l.Pairwise (fun a b => key b ≤ key a)) :
    (insertDescBy key x l).Pairwise (fun a b => key b ≤ key a) := by
  induction l with
  | nil => simp [insertDescBy]
  | cons y ys ih =>
      rcases List.pairwise_cons.mp h with ⟨hy, hys⟩
      by_cases hk : key x ≥ key y
      · rw [insertDescBy, if_pos hk]
        refine List.pairwise_cons.mpr ⟨?_, h⟩
        intro z hz
        rcases List.mem_cons.mp hz with rfl | hz
        · exact hk
        · exact le_trans (hy z hz) hk
      · rw [insertDescBy, if_neg hk]
        refine List.pairwise_cons.mpr ⟨?_, ih hys⟩
        intro z hz
        rcases (mem_insertDescBy key x ys z).mp hz with rfl | hz
        · exact le_of_lt (lt_of_not_ge hk)
        · exact hy z hz

theorem pairwise_sortDescBy (key : α → ℕ) (l : List α) :
    (sortDescBy key l).Pairwise (fun a b => key b ≤ key a) := by
  induction l with
  | nil => simp [sortDescBy]
  | cons y ys ih => exact pairwise_insertDescBy key y (sortDescBy key ys) ih

/-! Section embedding the template knowledge base (`WorkflowKnowledgeBase` in
the workflow-knowledge module).  A template record is projected to the fields
the public queries read: id, name, description, category, difficulty, tag
list, integration service names and popularity.  The store's state is its
insertion-ordered workflow list; each query is modelled as a function from the
store state to (result, post-call store state), which makes JavaScript's
in-place `sort` mutation explicit. -/

structure WorkflowTemplate where
  id : Str
  name : Str
  description : Str
  category : Str
  difficulty : Str
  tags : List Str
  integrations : List Str
  popularity : ℕ
deriving DecidableEq, Repr

/-- Optional structured filters of `searchWorkflows`; an absent `tags` array is
identified with the empty list (both skip the tag filter in the source). -/
structure SearchFilters where
  category : Option Str
  difficulty : Option Str
  tags : List Str
  integration : Option Str
deriving DecidableEq, Repr

/-- The filterless search. -/
def noFilters : SearchFilters := ⟨none, none, [], none⟩

/-- One search term matches a template when it occurs as a substring of the
lower-cased name, the lower-cased description, or some lower-cased tag. -/
def termHit (w : WorkflowTemplate) (term : Str) : Bool :=
  containsSub (lower w.name) term ||
  containsSub (lower w.description) term ||
  w.tags.any (fun tag => containsSub (lower tag) term)

/-- Text-match of `searchWorkflows`: the lower-cased query is split on the
space character (JavaScript `query.toLowerCase().split(' ')`) and every
resulting term must hit the template. -/
def jsQueryMatch (query : Str) (w : WorkflowTemplate) : Bool :=
  ((lower query).splitOn ' ').all (fun term => termHit w term)

/-- Embedding of `searchWorkflows(query, filters)`.  Returns the result list
and the post-call store state: when the query is empty and no filter is
supplied, `results` aliases the store's array and the final in-place sort
mutates the store; otherwise some `filter` call produced a fresh array and the
store is untouched. -/
def searchWorkflows (st : List WorkflowTemplate) (query : Str) (f : SearchFilters) :
    List WorkflowTemplate × List WorkflowTemplate :=
  let results0 := if query ≠ [] then st.filter (fun w => jsQueryMatch query w) else st
  let results1 := match f.category with
    | some c => results0.filter (fun w => w.category = c)
    | none => results0
  let results2 := match f.difficulty with
    | some d => results1.filter (fun w => w.difficulty = d)
    | none => results1
  let results3 := if f.tags ≠ [] then
      results2.filter (fun w => f.tags.any (fun tag => w.tags.contains tag))
    else results2
  let results4 := match f.integration with
    | some s => results3.filter (fun w => w.integrations.any (fun i => lower i = lower s))
    | none => results3
  let sorted := sortDescBy (fun w => w.popularity) results4
  let copied := query ≠ [] ∨ f.category.isSome = true ∨ f.difficulty.isSome = true ∨
    f.tags ≠ [] ∨ f.integration.isSome = true
  (sorted, if copied then st else sorted)

/-- Embedding of `getWorkflowById` (a `find`, no mutation). -/
def getWorkflowById (st : List WorkflowTemplate) (i : Str) :
    Option WorkflowTemplate × List WorkflowTemplate :=
  (st.find? (fun w => w.id = i), st)

/-- Embedding of `getPopularWorkflows(limit)`: `this.workflows.sort(...)` sorts
the store's own array IN PLACE and `slice` copies the first `limit` entries,
so the post-call store state is the fully sorted list. -/
def getPopularWorkflows (st : List WorkflowTemplate) (limit : ℕ) :
    List WorkflowTemplate × List WorkflowTemplate :=
  ((sortDescBy (fun w => w.popularity) st).take limit,
   sortDescBy (fun w => w.popularity) st)

/-- Per-template recommendation score: for each lower-cased requirement text,
+3 for a name substring hit, +2 for a description hit, +1 for a tag hit. -/
def recScore (keywords : List Str) (w : WorkflowTemplate) : ℕ :=
  keywords.foldl (fun score keyword =>
    score + (if containsSub (lower w.name) keyword then 3 else 0)
          + (if containsSub (lower w.description) keyword then 2 else 0)
          + (if w.tags.any (fun tag => containsSub (lower tag) keyword) then 1 else 0)) 0

/-- Embedding of `getRecommendedWorkflows(requirements)`: map to
(template, score) pairs, drop zero scores, stable-sort descending by score,
keep the top 10, project back to templates.  `map` copies, so the store is
not mutated. -/
def getRecommendedWorkflows (st : List WorkflowTemplate) (requirements : List Str) :
    List WorkflowTemplate × List WorkflowTemplate :=
  let keywords := requirements.map lower
  let scored := st.map (fun w => (w, recScore keywords w))
  let positive := scored.filter (fun p => 0 < p.2)
  let sorted := sortDescBy (fun p => p.2) positive
  ((sorted.take 10).map (fun p => p.1), st)

/-- The recommendation pipeline exactly as the specification words it: score
each template, discard zero-score templates, stable-sort descending by score,
truncate to the top 10. -/
def recommendClaim (st : List WorkflowTemplate) (requirements : List Str) :
    List WorkflowTemplate :=
  let keywords := requirements.map lower
  (sortDescBy (fun w => recScore keywords w)
    (st.filter (fun w => 0 < recScore keywords w))).take 10

/-! Section with claim-side predicates and helper lemmas for the store. -/

/-- Whitespace character per JavaScript (space, tab, line feed, carriage
return); used only in the specification-side tokenizer. -/
def wsChar (c : Char) : Bool :=
  c == ' ' || c == Char.ofNat 9 || c == Char.ofNat 10 || c == Char.ofNat 13

/-- Specification-side tokenizer: split on every whitespace character (the
claim's "whitespace-separated tokens"), keeping empty runs like `split`. -/
def wsTokens : Str → List Str
  | [] => [[]]
  | c :: rest =>
      if wsChar c then [] :: wsTokens rest
      else
        match wsTokens rest with
        | [] => [[c]]
        | t :: ts => (c :: t) :: ts

/-- Specification-side text match: every whitespace-separated token of the
case-folded query hits the template. -/
def wsQueryMatch (query : Str) (w : WorkflowTemplate) : Bool :=
  (wsTokens (lower query)).all (fun term => termHit w term)

/-- A template satisfies all supplied structured filters. -/
def passesFilters (f : SearchFilters) (w : WorkflowTemplate) : Bool :=
  (match f.category with | some c => decide (w.category = c) | none => true) &&
  (match f.difficulty with | some d => decide (w.difficulty = d) | none => true) &&
  (if f.tags ≠ [] then f.tags.any (fun tag => w.tags.contains tag) else true) &&
  (match f.integration with
    | some s => w.integrations.any (fun i => lower i = lower s)
    | none => true)

theorem filter_pos_map_pair (k : α → ℕ) (l : List α) :
    ((l.map (fun w => (w, k w))).filter (fun p => 0 < p.2)) =
      (l.filter (fun w => 0 < k w)).map (fun w => (w, k w)) := by
  induction l with
  | nil => rfl
  | cons x xs ih => by_cases h : 0 < k x <;> simp [List.filter_cons, h, ih]

theorem insertDescBy_snd_map_pair (k : α → ℕ) (x : α) (l : List α) :
    insertDescBy (fun p : α × ℕ => p.2) (x, k x) (l.map (fun w => (w, k w))) =
      (insertDescBy k x l).map (fun w => (w, k w)) := by
  induction l with
  | nil => rfl
  | cons y ys ih => by_cases h : k x ≥ k y <;> simp [insertDescBy, h, ih]

theorem sortDescBy_snd_map_pair (k : α → ℕ) (l : List α) :
    sortDescBy (fun p : α × ℕ => p.2) (l.map (fun w => (w, k w))) =
      (sortDescBy k l).map (fun w => (w, k w)) := by
  induction l with
  | nil => rfl
  | cons y ys ih => simp only [List.map_cons, sortDescBy, ih, insertDescBy_snd_map_pair]

/-! Section of concrete templates used in counterexamples and scenario checks. -/

/-- A low-popularity template, loaded first. -/
def alphaTemplate : WorkflowTemplate :=
  { id := ("t-alpha").toList, name := ("Alpha Flow").toList,
    description := ("First loaded").toList, category := ("data-processing").toList,
    difficulty := ("beginner").toList, tags := [], integrations := [], popularity := 1 }

/-- A high-popularity template, loaded second. -/
def betaTemplate : WorkflowTemplate :=
  { id := ("t-beta").toList, name := ("Beta Flow").toList,
    description := ("Second loaded").toList, category := ("data-processing").toList,
    difficulty := ("beginner").toList, tags := [], integrations := [], popularity := 5 }

/-- A template whose name contains both "order" and "payment". -/
def orderPaymentTemplate : WorkflowTemplate :=
  { id := ("t-op").toList, name := ("Order Payment Processing").toList,
    description := ("Automates order payments").toList, category := ("e-commerce").toList,
    difficulty := ("intermediate").toList, tags := [("ecommerce").toList],
    integrations := [], popularity := 10 }

/-- A template containing "order" but not "payment" in name, description or tags. -/
def orderOnlyTemplate : WorkflowTemplate :=
  { id := ("t-oo").toList, name := ("Order Tracker").toList,
    description := ("Tracks orders").toList, category := ("e-commerce").toList,
    difficulty := ("beginner").toList, tags := [("orders").toList],
    integrations := [], popularity := 20 }

/-- A template with "lead" in its name only. -/
def leadScoringTemplate : WorkflowTemplate :=
  { id := ("t-lead").toList, name := ("Lead Scoring").toList,
    description := ("Score incoming prospects").toList, category := ("crm-sales").toList,
    difficulty := ("intermediate").toList, tags := [("crm").toList],
    integrations := [], popularity := 5 }

/-- A template where "lead" appears only in a tag. -/
def tagLeadTemplate : WorkflowTemplate :=
  { id := ("t-tag").toList, name := ("Email Digest").toList,
    description := ("Daily summary").toList, category := ("marketing-automation").toList,
    difficulty := ("beginner").toList, tags := [("lead").toList],
    integrations := [], popularity := 99 }

/-- The query "order" + TAB + "payment": one space-split term, two
whitespace-split tokens. -/
def tabQuery : Str := ("order").toList ++ [Char.ofNat 9] ++ ("payment").toList

/-! Section settling the store claims. -/

/-- C4 counterexample: `getPopularWorkflows` sorts the store's internal
workflow list in place, so a store loaded as [alpha (popularity 1),
beta (popularity 5)] is left reordered to [beta, alpha] after the query —
the store's internal state is NOT unchanged, refuting the claim. -/
theorem getPopularWorkflows_mutates_store :
    (getPopularWorkflows [alphaTemplate, betaTemplate] 10).2 ≠
      [alphaTemplate, betaTemplate] := by decide

/-- C4 amended: `getPopular(n)` returns the top `n` templates sorted
descending by popularity (ties keeping the current list order), but it sorts
the store's internal list in place, leaving the store in popularity-descending
order; `getWorkflowById` and `getRecommendedWorkflows` leave the store
unchanged, and `searchWorkflows` leaves it unchanged whenever the query is
non-empty. -/
theorem templateStore_query_effects :
    (∀ st limit,
        (getPopularWorkflows st limit).1 =
          (sortDescBy (fun w => w.popularity) st).take limit ∧
        (getPopularWorkflows st limit).2 = sortDescBy (fun w => w.popularity) st ∧
        ((getPopularWorkflows st limit).1).Pairwise
          (fun a b => b.popularity ≤ a.popularity)) ∧
    (∀ st i, (getWorkflowById st i).2 = st) ∧
    (∀ st reqs, (getRecommendedWorkflows st reqs).2 = st) ∧
    (∀ st q f, q ≠ [] → (searchWorkflows st q f).2 = st) := by
  refine ⟨fun st limit => ⟨rfl, rfl, ?_⟩, fun st i => rfl, fun st reqs => rfl, ?_⟩
  · exact (pairwise_sortDescBy _ st).take
  · intro st q f hq
    simp only [searchWorkflows]
    rw [if_pos (Or.inl hq)]

/-- C4 witness: the amended theorem applied at a concrete non-empty query. -/
theorem templateStore_query_effects_witness :
    (searchWorkflows [alphaTemplate] (("a").toList) noFilters).2 = [alphaTemplate] :=
  templateStore_query_effects.2.2.2 [alphaTemplate] (("a").toList) noFilters (by decide)

/-- C5 counterexample: the source splits the query on the SPACE character
only, not on whitespace.  For the query "order⟨TAB⟩payment" every
whitespace-separated token ("order", "payment") occurs in the template's name
and all (absent) filters pass, so the claim requires inclusion — but
`searchWorkflows` treats the whole string as a single term and excludes the
template. -/
theorem searchWorkflows_whitespace_mismatch :
    wsQueryMatch tabQuery orderPaymentTemplate = true ∧
    passesFilters noFilters orderPaymentTemplate = true ∧
    orderPaymentTemplate ∈ [orderPaymentTemplate, orderOnlyTemplate] ∧
    orderPaymentTemplate ∉
      (searchWorkflows [orderPaymentTemplate, orderOnlyTemplate] tabQuery noFilters).1 := by
  decide

/-- C5 amended: with tokens obtained by splitting the case-folded query on the
space character (U+0020) — as the code does — membership in the result of a
non-empty query is exactly: loaded in the store, every token hits name,
description or some tag, and all supplied filters pass; in particular
"order payment" includes the template containing both tokens and excludes the
template containing only "order". -/
theorem searchWorkflows_membership :
    (∀ st q f w, q ≠ [] →
        (w ∈ (searchWorkflows st q f).1 ↔
          w ∈ st ∧ jsQueryMatch q w = true ∧ passesFilters f w = true)) ∧
    orderPaymentTemplate ∈
      (searchWorkflows [orderPaymentTemplate, orderOnlyTemplate]
        (("order payment").toList) noFilters).1 ∧
    orderOnlyTemplate ∉
      (searchWorkflows [orderPaymentTemplate, orderOnlyTemplate]
        (("order payment").toList) noFilters).1 := by
  refine ⟨?_, by decide, by decide⟩
  intro st q f w hq
  rcases f with ⟨fc, fd, ft, fi⟩
  by_cases hft : ft = [] <;>
    cases fc <;> cases fd <;> cases fi <;>
      simp [searchWorkflows, passesFilters, mem_sortDescBy, List.mem_filter, hq, hft,
        and_assoc] <;> tauto

/-- C5 witness: the amended membership equivalence applied at the concrete
store and query, hypotheses discharged by evaluation. -/
theorem searchWorkflows_membership_witness :
    orderPaymentTemplate ∈
      (searchWorkflows [orderPaymentTemplate, orderOnlyTemplate]
        (("order payment").toList) noFilters).1 :=
  (searchWorkflows_membership.1 [orderPaymentTemplate, orderOnlyTemplate]
    (("order payment").toList) noFilters orderPaymentTemplate (by decide)).mpr (by decide)

/-- C6: `getRecommendedWorkflows` equals the claimed pipeline — score each
template by 3 per name hit + 2 per description hit + 1 per tag hit summed
over the case-folded requirement texts, discard zero scores, stable-sort
descending by score, truncate to the top 10; the result is score-sorted, has
at most 10 entries, and contains only positively scored store templates; and
on the concrete store, the "Lead Scoring" template (name hit, score ≥ 3) is
ranked before the template whose only hit is a tag (score 1). -/
theorem getRecommendedWorkflows_spec :
    (∀ st reqs, (getRecommendedWorkflows st reqs).1 = recommendClaim st reqs) ∧
    (∀ st reqs, ((getRecommendedWorkflows st reqs).1).Pairwise
        (fun a b => recScore (reqs.map lower) b ≤ recScore (reqs.map lower) a)) ∧
    (∀ st reqs, (getRecommendedWorkflows st reqs).1.length ≤ 10) ∧
    (∀ st reqs w, w ∈ (getRecommendedWorkflows st reqs).1 →
        0 < recScore (reqs.map lower) w ∧ w ∈ st) ∧
    (getRecommendedWorkflows [tagLeadTemplate, leadScoringTemplate]
        [("lead").toList]).1 = [leadScoringTemplate, tagLeadTemplate] ∧
    3 ≤ recScore [("lead").toList] leadScoringTemplate ∧
    recScore [("lead").toList] tagLeadTemplate = 1 := by
  have heq : ∀ (st : List WorkflowTemplate) (reqs : List Str),
      (getRecommendedWorkflows st reqs).1 = recommendClaim st reqs := by
    intro st reqs
    simp only [getRecommendedWorkflows, recommendClaim, filter_pos_map_pair,
      sortDescBy_snd_map_pair, List.map_take, List.map_map]
    simp [Function.comp_def]
  refine ⟨heq, ?_, ?_, ?_, by decide, by decide, by decide⟩
  · intro st reqs
    rw [heq]
    exact (pairwise_sortDescBy _ _).take
  · intro st reqs
    rw [heq, recommendClaim]
    exact le_trans (List.length_take_le _ _) le_rfl
  · intro st reqs w hw
    rw [heq] at hw
    have hw' := List.take_subset _ _ hw
    rw [mem_sortDescBy] at hw'
    have := List.mem_filter.mp hw'
    exact ⟨by simpa using this.2, this.1⟩

/-- C6 witness: the zero-score-exclusion clause applied at the concrete
store, membership hypothesis discharged by evaluation. -/
theorem getRecommendedWorkflows_spec_witness :
    0 < recScore [("lead").toList] leadScoringTemplate ∧
      leadScoringTemplate ∈ [tagLeadTemplate, leadScoringTemplate] :=
  getRecommendedWorkflows_spec.2.2.2.1 [tagLeadTemplate, leadScoringTemplate]
    [("lead").toList] leadScoringTemplate (by decide)

/-! Section embedding the requirement records and the completeness assessment
of the conversational agent (`ai-agent` module). -/

/-- The fixed requirement-category union type. -/
inductive RequirementCategory where
  | businessProcess
  | technicalSpecs
  | integrations
  | scaleVolume
  | securityCompliance
  | userExperience
  | budgetTimeline
  | successMetrics
deriving DecidableEq, Repr

/-- A requirement record, projected to the two fields the verified functions
read: its category and its answer text. -/
structure ProjectRequirement where
  category : RequirementCategory
  answer : Str
deriving DecidableEq, Repr

/-- The four critical categories of `assessRequirementsCompleteness`. -/
def criticalCategories : List RequirementCategory :=
  [.businessProcess, .technicalSpecs, .integrations, .scaleVolume]

/-- Embedding of `assessRequirementsCompleteness`: the number of critical
categories present in (the set of categories of) the accumulated requirement
list, divided by the number of critical categories. -/
def assessRequirementsCompleteness (reqs : List ProjectRequirement) : ℚ :=
  ((criticalCategories.filter
      (fun cat => reqs.any (fun r => r.category == cat))).length : ℚ) /
    (criticalCategories.length : ℚ)

/-- C7: `assessRequirementsCompleteness` depends only on the set of distinct
requirement categories present — two requirement lists covering the same
categories assess equal — and appending a requirement whose category is
already present leaves the value unchanged. -/
theorem assessRequirementsCompleteness_category_set :
    (∀ r1 r2 : List ProjectRequirement,
        (∀ c, (r1.any (fun r => r.category == c)) = (r2.any (fun r => r.category == c))) →
        assessRequirementsCompleteness r1 = assessRequirementsCompleteness r2) ∧
    (∀ (reqs : List ProjectRequirement) (req : ProjectRequirement),
        reqs.any (fun r => r.category == req.category) = true →
        assessRequirementsCompleteness (reqs ++ [req]) =
          assessRequirementsCompleteness reqs) := by
  constructor
  · intro r1 r2 h
    unfold assessRequirementsCompleteness
    rw [List.filter_congr (fun cat _ => h cat)]
  · intro reqs req h
    unfold assessRequirementsCompleteness
    rw [List.filter_congr (l := criticalCategories) (fun cat _ => ?_)]
    by_cases hc : req.category = cat
    · subst hc
      simp [List.any_append, h]
    · simp [List.any_append, hc]

/-- C7 witness: the idempotence clause applied to a duplicate
business-process requirement, and the set-dependence clause applied to two
lists covering the same single category. -/
theorem assessRequirementsCompleteness_category_set_witness :
    assessRequirementsCompleteness
        ([⟨.businessProcess, ("automate orders").toList⟩] ++
          [⟨.businessProcess, ("automate invoices").toList⟩]) =
      assessRequirementsCompleteness [⟨.businessProcess, ("automate orders").toList⟩] ∧
    assessRequirementsCompleteness [⟨.integrations, ("connect crm").toList⟩] =
      assessRequirementsCompleteness
        [⟨.integrations, ("sync api").toList⟩, ⟨.integrations, ("webhook feed").toList⟩] :=
  ⟨assessRequirementsCompleteness_category_set.2
      [⟨.businessProcess, ("automate orders").toList⟩]
      ⟨.businessProcess, ("automate invoices").toList⟩ (by decide),
   assessRequirementsCompleteness_category_set.1
      [⟨.integrations, ("connect crm").toList⟩]
      [⟨.integrations, ("sync api").toList⟩, ⟨.integrations, ("webhook feed").toList⟩]
      (by intro c; cases c <;> rfl)⟩

/-! Section embedding the blueprint generator's analysis, implementation-plan,
cost and ROI computations (`BlueprintGenerator` in the blueprint-generator
module). -/

inductive ProjectType where
  | automation | integration | transformation | analytics | hybrid
deriving DecidableEq, Repr

inductive Complexity where
  | simple | moderate | complex | enterprise
deriving DecidableEq, Repr

inductive Timeline where
  | urgent | normal | extended
deriving DecidableEq, Repr

inductive Budget where
  | minimal | standard | premium | enterprise
deriving DecidableEq, Repr

inductive RiskTolerance where
  | low | medium | high
deriving DecidableEq, Repr

structure BlueprintConfig where
  projectType : ProjectType
  complexity : Complexity
  timeline : Timeline
  budget : Budget
  riskTolerance : RiskTolerance
deriving DecidableEq, Repr

/-- A task, projected to its hour estimate (the only field `calculateCosts`
reads). -/
structure Task where
  estimatedHours : ℕ
deriving DecidableEq, Repr

structure Phase where
  tasks : List Task
deriving DecidableEq, Repr

structure ImplementationPlan where
  phases : List Phase
deriving DecidableEq, Repr

/-- The joined, lower-cased requirement answer text that every keyword
analysis of the generator and the workflow builder scans
(`requirements.map(r => r.answer.toLowerCase()).join(' ')`). -/
def reqContent (reqs : List ProjectRequirement) : Str :=
  List.intercalate [' '] (reqs.map (fun r => lower r.answer))

/-- Embedding of `identifyDomain`: first matching keyword group wins, with
fallback "general". -/
def identifyDomain (reqs : List ProjectRequirement) : Str :=
  let content := reqContent reqs
  if containsSub content (("ecommerce").toList) ∨
     containsSub content (("e-commerce").toList) ∨
     containsSub content (("shop").toList) ∨
     containsSub content (("orders").toList) then ("ecommerce").toList
  else if containsSub content (("crm").toList) ∨
     containsSub content (("sales").toList) ∨
     containsSub content (("leads").toList) then ("sales").toList
  else if containsSub content (("data").toList) ∨
     containsSub content (("analytics").toList) ∨
     containsSub content (("reporting").toList) then ("data").toList
  else if containsSub content (("support").toList) ∨
     containsSub content (("customer service").toList) ∨
     containsSub content (("tickets").toList) then ("support").toList
  else if containsSub content (("marketing").toList) ∨
     containsSub content (("email").toList) ∨
     containsSub content (("campaigns").toList) then ("marketing").toList
  else ("general").toList

/-- Embedding of `countIntegrations`: how many of the six integration
keywords occur in the joined requirement text. -/
def countIntegrations (reqs : List ProjectRequirement) : ℕ :=
  (([("api").toList, ("integration").toList, ("connect").toList,
     ("sync").toList, ("webhook").toList, ("database").toList]).filter
    (fun keyword => containsSub (reqContent reqs) keyword)).length

/-- Embedding of `requiresAI`. -/
def requiresAI (reqs : List ProjectRequirement) : Bool :=
  containsSub (reqContent reqs) (("ai").toList) ||
  containsSub (reqContent reqs) (("intelligent").toList) ||
  containsSub (reqContent reqs) (("smart").toList) ||
  containsSub (reqContent reqs) (("learning").toList)

/-- Embedding of `hasComplexBusinessLogic`. -/
def hasComplexBusinessLogic (reqs : List ProjectRequirement) : Bool :=
  containsSub (reqContent reqs) (("complex").toList) ||
  containsSub (reqContent reqs) (("multiple conditions").toList) ||
  containsSub (reqContent reqs) (("decision tree").toList)

/-- Embedding of `hasComplianceRequirements`. -/
def hasComplianceRequirements (reqs : List ProjectRequirement) : Bool :=
  containsSub (reqContent reqs) (("compliance").toList) ||
  containsSub (reqContent reqs) (("regulation").toList) ||
  containsSub (reqContent reqs) (("audit").toList)

/-- Embedding of `assessComplexity`: additive score over integration count,
AI, complex-logic and compliance keywords, bucketed at 5 / 3 / 2. -/
def assessComplexity (reqs : List ProjectRequirement) : Complexity :=
  let integrationCount := countIntegrations reqs
  let score :=
    (if integrationCount > 5 then 2 else if integrationCount > 2 then 1 else 0) +
    (if requiresAI reqs then 1 else 0) +
    (if hasComplexBusinessLogic reqs then 1 else 0) +
    (if hasComplianceRequirements reqs then 2 else 0)
  if score ≥ 5 then Complexity.enterprise
  else if score ≥ 3 then Complexity.complex
  else if score ≥ 2 then Complexity.moderate
  else Complexity.simple

/-- Embedding of `estimateWorkflowHours` (the complexity union has exactly the
four listed members, so the switch's default branch is unreachable). -/
def estimateWorkflowHours : Complexity → ℕ
  | .simple => 16
  | .moderate => 32
  | .complex => 64
  | .enterprise => 120

/-- Embedding of `generateImplementationPhases`, projected to the task-hour
content of its four fixed phases (Setup and Foundation; Core Workflow
Development; Integration and Testing; Deployment and Training). -/
def generateImplementationPhases (config : BlueprintConfig) : List Phase :=
  [⟨[⟨if config.timeline = Timeline.urgent then 6 else 8⟩, ⟨4⟩, ⟨3⟩]⟩,
   ⟨[⟨estimateWorkflowHours config.complexity⟩, ⟨8⟩, ⟨6⟩]⟩,
   ⟨[⟨16⟩, ⟨8⟩, ⟨12⟩]⟩,
   ⟨[⟨6⟩, ⟨8⟩, ⟨6⟩]⟩]

/-- Embedding of `generateImplementationPlan` (the architecture argument is
not consulted by the phase or cost computations). -/
def generateImplementationPlan (config : BlueprintConfig) : ImplementationPlan :=
  ⟨generateImplementationPhases config⟩

structure DevelopmentCost where
  hours : ℕ
  rate : ℕ
  total : ℕ
deriving DecidableEq, Repr

structure RecurringCost where
  monthly : ℕ
  annually : ℕ
deriving DecidableEq, Repr

structure TotalCost where
  initial : ℕ
  firstYear : ℕ
deriving DecidableEq, Repr

structure CostEstimation where
  development : DevelopmentCost
  infrastructure : RecurringCost
  maintenance : RecurringCost
  total : TotalCost
deriving DecidableEq, Repr

/-- Total hours of an implementation plan as `calculateCosts` sums them. -/
def totalPlanHours (plan : ImplementationPlan) : ℕ :=
  plan.phases.foldl
    (fun t phase => t + phase.tasks.foldl (fun s task => s + task.estimatedHours) 0) 0

/-- Embedding of `calculateCosts`: hours × the fixed 100 $/h developer rate,
plus the fixed 200 $/month infrastructure and 500 $/month maintenance costs. -/
def calculateCosts (plan : ImplementationPlan) : CostEstimation :=
  let developerRate := 100
  let totalHours := totalPlanHours plan
  { development := ⟨totalHours, developerRate, totalHours * developerRate⟩
    infrastructure := ⟨200, 2400⟩
    maintenance := ⟨500, 6000⟩
    total := ⟨totalHours * developerRate, totalHours * developerRate + 2400 + 6000⟩ }

structure ROIProjection where
  timeSavingsHoursPerWeek : ℕ
  costSavingsPerMonth : ℕ
  productivityGainPercentage : ℕ
  errorReductionPercentage : ℕ
  paybackPeriodMonths : ℤ
  threeYearROI : ℤ
deriving DecidableEq, Repr

/-- Embedding of `calculateROI(requirements, costs)`.  The source draws
`Math.floor(Math.random() * 20)` to set the 10-30 h/week time-savings
placeholder; that draw is made explicit as the `floorRand` parameter (its
value, an integer in `[0, 20)`).  The `requirements` parameter is accepted
and, exactly as in the source, never read.  Division is exact: the operands
are small integers, for which JavaScript float arithmetic and `Math.round` /
`Math.ceil` agree with `intRoundDiv` / `intCeilDiv`. -/
def calculateROI (floorRand : ℕ) (requirements : List ProjectRequirement)
    (costs : CostEstimation) : ROIProjection :=
  let timeSavingsHoursPerWeek := floorRand + 10
  let hourlyRate := 50
  let costSavingsPerMonth := timeSavingsHoursPerWeek * 4 * hourlyRate
  let annualSavings := costSavingsPerMonth * 12
  let threeYearSavings := annualSavings * 3
  let threeYearCosts : ℤ := (costs.total.initial : ℤ) +
    (costs.infrastructure.annually : ℤ) * 3 + (costs.maintenance.annually : ℤ) * 3
  { timeSavingsHoursPerWeek := timeSavingsHoursPerWeek
    costSavingsPerMonth := costSavingsPerMonth
    productivityGainPercentage := 45
    errorReductionPercentage := 85
    paybackPeriodMonths := intCeilDiv (costs.total.initial : ℤ) (costSavingsPerMonth : ℤ)
    threeYearROI := intRoundDiv (((threeYearSavings : ℤ) - threeYearCosts) * 100) threeYearCosts }

/-- A generated blueprint, projected to the fields the claims concern: the
implementation plan that drives `calculateCosts`, and `estimatedROI`. -/
structure GeneratedBlueprint where
  implementationPlan : ImplementationPlan
  estimatedROI : ℤ
deriving DecidableEq, Repr

/-- Embedding of `generateComprehensiveBlueprint`: plan from the config, costs
from the plan, ROI from the costs (threading the random draw), and
`estimatedROI := roiProjection.threeYearROI`. -/
def generateComprehensiveBlueprint (reqs : List ProjectRequirement)
    (config : BlueprintConfig) (floorRand : ℕ) : GeneratedBlueprint :=
  let implementationPlan := generateImplementationPlan config
  let costEstimation := calculateCosts implementationPlan
  let roiProjection := calculateROI floorRand reqs costEstimation
  { implementationPlan := implementationPlan
    estimatedROI := roiProjection.threeYearROI }

/-- Embedding of `AIEngineerAgent.createProjectBlueprint`, projected to the
same fields: its hard-coded implementation plan is a single phase
("Setup & Configuration") with a single 8-hour task, and its `estimatedROI`
is the literal 250 — no cost or ROI computation is performed. -/
def createProjectBlueprint : GeneratedBlueprint :=
  { implementationPlan := ⟨[⟨[⟨8⟩]⟩]⟩, estimatedROI := 250 }

/-! Section settling the cost / ROI claims. -/

/-- C2 counterexample: the agent's `createProjectBlueprint` assigns
`estimatedROI = 250` independently of any ROI computation: for its own
implementation plan (800 $ initial cost), `calculateROI` yields a
`threeYearROI` different from 250 under EVERY possible value of the random
draw, so 250 cannot equal the threeYearROI computed from the blueprint's cost
estimation. -/
theorem createProjectBlueprint_roi_not_derived :
    createProjectBlueprint.estimatedROI = 250 ∧
    ((List.range 20).all (fun k =>
        decide ((calculateROI k []
          (calculateCosts createProjectBlueprint.implementationPlan)).threeYearROI ≠ 250)))
      = true := by
  exact ⟨rfl, by decide⟩

/-- C2 amended: blueprints produced by
`BlueprintGenerator.generateComprehensiveBlueprint` satisfy the invariant —
`estimatedROI` equals the `threeYearROI` of the `ROIProjection` computed by
`calculateROI` from the blueprint's `CostEstimation` — but the agent's
`createProjectBlueprint` instead assigns the constant 250, not derived from
that computation. -/
theorem estimatedROI_derivation :
    (∀ reqs config floorRand,
        (generateComprehensiveBlueprint reqs config floorRand).estimatedROI =
          (calculateROI floorRand reqs
            (calculateCosts
              (generateComprehensiveBlueprint reqs config floorRand).implementationPlan)).threeYearROI) ∧
    createProjectBlueprint.estimatedROI = 250 :=
  ⟨fun _ _ _ => rfl, rfl⟩

/-- The cost estimation of the agent's hard-coded plan, used as the fixed
`CostEstimation` input of the C3 counterexample. -/
def cexCosts : CostEstimation := calculateCosts createProjectBlueprint.implementationPlan

/-- C3 counterexample: with the requirement list and the `CostEstimation`
input both fixed, two calls of `calculateROI` that draw different values of
`Math.floor(Math.random() * 20)` (0 and 19, both possible) return different
`threeYearROI` values — 177 vs 703 — so `calculateROI` is not deterministic
as claimed. -/
theorem calculateROI_random_draws_differ :
    (calculateROI 0 [] cexCosts).threeYearROI ≠ (calculateROI 19 [] cexCosts).threeYearROI := by
  decide

/-- C3 amended: `calculateROI` is deterministic once the random draw is
fixed, and depends on nothing else but the `CostEstimation` input — in
particular not on the requirement list; only the internal
`Math.floor(Math.random() * 20)` sample makes repeated calls differ. -/
theorem calculateROI_deterministic_given_draw :
    ∀ (reqs reqs' : List ProjectRequirement) (costs : CostEstimation) (floorRand : ℕ),
      calculateROI floorRand reqs costs = calculateROI floorRand reqs' costs :=
  fun _ _ _ _ => rfl

/-! Section embedding the n8n workflow graph builder (`N8nWorkflowBuilder`).
Nodes are projected to the fields the claims concern — the allocated id
(modelled by the counter value behind the `node_${counter++}` string, an
injective rendering), the display name and the n8n type tag; parameter bags,
positions and credential references are not modelled.  The nested connection
record keyed by source-node name is modelled as the ordered list of
connection entries pushed by `connectNodes` — source name, target name and
the constant input index 0.  The node-id counter is threaded explicitly:
every creator takes the current counter and returns the node(s) with the next
counter value. -/

/-- A component of the blueprint architecture, projected to the two fields
the builder reads: its name and its type tag. -/
structure Component where
  name : Str
  type : Str
deriving DecidableEq, Repr

/-- A blueprint as the builder consumes it, projected to the fields it reads:
`technicalArchitecture.components` and the service names of
`technicalArchitecture.integrations` (title feeds only display names and
tags, which are not modelled). -/
structure ProjectBlueprint where
  title : Str
  components : List Component
  integrations : List Str
deriving DecidableEq, Repr

inductive SecurityLevel where
  | basic | standard | high
deriving DecidableEq, Repr

inductive ScalabilityPattern where
  | simple | distributed | enterprise
deriving DecidableEq, Repr

structure WorkflowGenerationOptions where
  includeErrorHandling : Bool
  addMonitoring : Bool
  enableRetries : Bool
  includeLogging : Bool
  securityLevel : SecurityLevel
  scalabilityPattern : ScalabilityPattern
deriving DecidableEq, Repr

/-- A workflow node: allocated id (counter value), display name, n8n type. -/
structure N8nNode where
  id : ℕ
  name : Str
  type : Str
deriving DecidableEq, Repr

/-- One connection entry as pushed by `connectNodes`: the source node name it
is keyed under, the target node name, and the constant input index 0. -/
structure N8nConnection where
  source : Str
  target : Str
  index : ℕ
deriving DecidableEq, Repr

/-- The four values `determineTriggerType` can return. -/
inductive TriggerType where
  | webhook | schedule | email | manual
deriving DecidableEq, Repr

/-- Embedding of `determineTriggerType`: keyword scan of the joined
lower-cased requirement text with priority webhook > schedule > email and
fallback manual. -/
def determineTriggerType (reqs : List ProjectRequirement) : TriggerType :=
  let content := reqContent reqs
  if containsSub content (("webhook").toList) ∨ containsSub content (("api").toList) ∨
     containsSub content (("real-time").toList) then TriggerType.webhook
  else if containsSub content (("schedule").toList) ∨ containsSub content (("daily").toList) ∨
     containsSub content (("hourly").toList) then TriggerType.schedule
  else if containsSub content (("email").toList) ∨ containsSub content (("imap").toList) then
    TriggerType.email
  else TriggerType.manual

/-- Embedding of `createTriggerNode`. -/
def createTriggerNode (reqs : List ProjectRequirement) (c : ℕ) : N8nNode × ℕ :=
  match determineTriggerType reqs with
  | .webhook => (⟨c, ("Webhook Trigger").toList, ("n8n-nodes-base.webhook").toList⟩, c + 1)
  | .schedule => (⟨c, ("Schedule Trigger").toList, ("n8n-nodes-base.cron").toList⟩, c + 1)
  | .email => (⟨c, ("Email Trigger").toList, ("n8n-nodes-base.emailReadImap").toList⟩, c + 1)
  | .manual => (⟨c, ("Manual Trigger").toList, ("n8n-nodes-base.manualTrigger").toList⟩, c + 1)

/-- Embedding of `createValidationNode`. -/
def createValidationNode (c : ℕ) : N8nNode × ℕ :=
  (⟨c, ("Input Validation").toList, ("n8n-nodes-base.function").toList⟩, c + 1)

/-- The processing node created for one processor component: AI-flavoured if
the component name contains "AI", a data `set` node if it contains "Data"
(this one also allocates three assignment ids from the same counter, hence
`c + 4`), generic `function` otherwise. -/
def procNodeFor (comp : Component) (c : ℕ) : N8nNode × ℕ :=
  if containsSub comp.name (("AI").toList) then
    (⟨c, ("AI Processing").toList, ("n8n-nodes-base.openAi").toList⟩, c + 1)
  else if containsSub comp.name (("Data").toList) then
    (⟨c, ("Transform Data").toList, ("n8n-nodes-base.set").toList⟩, c + 4)
  else
    (⟨c, ("Process Data").toList, ("n8n-nodes-base.function").toList⟩, c + 1)

/-- The loop of `createProcessingNodes`: one node per component of type
"processor", other components skipped. -/
def createProcessingNodesAux (comps : List Component) (c : ℕ) : List N8nNode × ℕ :=
  match comps with
  | [] => ([], c)
  | comp :: rest =>
      if comp.type = ("processor").toList then
        let n := procNodeFor comp c
        let ns := createProcessingNodesAux rest n.2
        (n.1 :: ns.1, ns.2)
      else createProcessingNodesAux rest c

/-- Embedding of `createProcessingNodes`: the loop over the blueprint's
components, with a single generic "Process Data" fallback node when no
processor component matched. -/
def createProcessingNodes (bp : ProjectBlueprint) (c : ℕ) : List N8nNode × ℕ :=
  let ns := createProcessingNodesAux bp.components c
  if ns.1 = [] then
    ([⟨ns.2, ("Process Data").toList, ("n8n-nodes-base.function").toList⟩], ns.2 + 1)
  else ns

/-- Embedding of `createHttpRequestNode`, the generic fallback integration. -/
def createHttpRequestNode (c : ℕ) : N8nNode × ℕ :=
  (⟨c, ("API Integration").toList, ("n8n-nodes-base.httpRequest").toList⟩, c + 1)

/-- Embedding of `createIntegrationNodeForService`: dispatch on the
lower-cased service name (hubspot / salesforce / stripe / database), falling
back to the generic HTTP-request node; never null. -/
def createIntegrationNodeForService (service : Str) (c : ℕ) : N8nNode × ℕ :=
  let s := lower service
  if containsSub s (("hubspot").toList) then
    (⟨c, ("HubSpot Integration").toList, ("n8n-nodes-base.hubspot").toList⟩, c + 1)
  else if containsSub s (("salesforce").toList) then
    (⟨c, ("Salesforce Integration").toList, ("n8n-nodes-base.salesforce").toList⟩, c + 1)
  else if containsSub s (("stripe").toList) then
    (⟨c, ("Stripe Integration").toList, ("n8n-nodes-base.stripe").toList⟩, c + 1)
  else if containsSub s (("database").toList) then
    (⟨c, ("Database Insert").toList, ("n8n-nodes-base.postgres").toList⟩, c + 1)
  else createHttpRequestNode c

/-- The loop of `createIntegrationNodes` over the declared integrations. -/
def createIntegrationNodesAux (services : List Str) (c : ℕ) : List N8nNode × ℕ :=
  match services with
  | [] => ([], c)
  | s :: rest =>
      let n := createIntegrationNodeForService s c
      let ns := createIntegrationNodesAux rest n.2
      (n.1 :: ns.1, ns.2)

/-- Embedding of `createIntegrationNodes`, with the HTTP-request default when
no integration was declared. -/
def createIntegrationNodes (bp : ProjectBlueprint) (c : ℕ) : List N8nNode × ℕ :=
  let ns := createIntegrationNodesAux bp.integrations c
  if ns.1 = [] then
    ([⟨ns.2, ("API Integration").toList, ("n8n-nodes-base.httpRequest").toList⟩], ns.2 + 1)
  else ns

/-- Embedding of `createOutputNode`. -/
def createOutputNode (c : ℕ) : N8nNode × ℕ :=
  (⟨c, ("Send Notification").toList, ("n8n-nodes-base.emailSend").toList⟩, c + 1)

/-- Embedding of `createErrorHandlingNodes`: the error-handler function node
and the error-notification email node. -/
def createErrorHandlingNodes (c : ℕ) : List N8nNode × ℕ :=
  ([⟨c, ("Error Handler").toList, ("n8n-nodes-base.function").toList⟩,
    ⟨c + 1, ("Error Notification").toList, ("n8n-nodes-base.emailSend").toList⟩], c + 2)

/-- The `forEach` loop over the processing nodes: connect each node from the
running `previousNodeName`, then advance it; returns the pushed connection
entries and the final `previousNodeName`. -/
def appendChain (prev : Str) (names : List Str) : List N8nConnection × Str :=
  match names with
  | [] => ([], prev)
  | nm :: rest =>
      let tail := appendChain nm rest
      (⟨prev, nm, 0⟩ :: tail.1, tail.2)

/-- Embedding of `buildMainWorkflow` (counter reset to 1): trigger, optional
validation node when `securityLevel ≠ basic`, processing nodes chained from
the running previous node, integration nodes each connected from the SAME
previous node (the loop does not advance `previousNodeName`), the output node
connected from that same previous node, and — when `includeErrorHandling` —
the two error nodes with the single error-handler → error-notification
connection added by `addErrorHandlingConnections`. -/
def buildMainWorkflow (bp : ProjectBlueprint) (reqs : List ProjectRequirement)
    (opts : WorkflowGenerationOptions) : List N8nNode × List N8nConnection :=
  let t := createTriggerNode reqs 1
  let hasValidation := opts.securityLevel ≠ SecurityLevel.basic
  let v := createValidationNode t.2
  let cAfterVal := if hasValidation then v.2 else t.2
  let prev1 := if hasValidation then v.1.name else t.1.name
  let p := createProcessingNodes bp cAfterVal
  let chain := appendChain prev1 (p.1.map (fun n => n.name))
  let i := createIntegrationNodes bp p.2
  let o := createOutputNode i.2
  let e := createErrorHandlingNodes o.2
  (t.1 :: ((if hasValidation then [v.1] else []) ++ p.1 ++ i.1 ++ [o.1] ++
      (if opts.includeErrorHandling then e.1 else [])),
   (if hasValidation then [(⟨t.1.name, v.1.name, 0⟩ : N8nConnection)] else []) ++
     chain.1 ++ i.1.map (fun n => (⟨chain.2, n.name, 0⟩ : N8nConnection)) ++
     [⟨chain.2, o.1.name, 0⟩] ++
     (if opts.includeErrorHandling then
       [(⟨("Error Handler").toList, ("Error Notification").toList, 0⟩ : N8nConnection)]
      else []))

/-- Embedding of `buildDataProcessingWorkflow` (counter reset to 1): the
fixed schedule → fetch → batch-process → status-update shape. -/
def buildDataProcessingWorkflow : List N8nNode × List N8nConnection :=
  ([⟨1, ("Data Processing Schedule").toList, ("n8n-nodes-base.cron").toList⟩,
    ⟨2, ("Fetch Data").toList, ("n8n-nodes-base.postgres").toList⟩,
    ⟨3, ("Process Data Batch").toList, ("n8n-nodes-base.function").toList⟩,
    ⟨4, ("Update Status").toList, ("n8n-nodes-base.postgres").toList⟩],
   [⟨("Data Processing Schedule").toList, ("Fetch Data").toList, 0⟩,
    ⟨("Fetch Data").toList, ("Process Data Batch").toList, 0⟩,
    ⟨("Process Data Batch").toList, ("Update Status").toList, 0⟩])

/-- Embedding of `buildMonitoringWorkflow` (counter reset to 1): the fixed
schedule → health-check shape. -/
def buildMonitoringWorkflow : List N8nNode × List N8nConnection :=
  ([⟨1, ("Monitoring Schedule").toList, ("n8n-nodes-base.cron").toList⟩,
    ⟨2, ("System Health Check").toList, ("n8n-nodes-base.function").toList⟩],
   [⟨("Monitoring Schedule").toList, ("System Health Check").toList, 0⟩])

/-- Embedding of `requiresDataProcessingWorkflow`. -/
def requiresDataProcessingWorkflow (bp : ProjectBlueprint) : Bool :=
  bp.components.any (fun comp =>
    comp.type == ("storage").toList || containsSub comp.name (("Data").toList))

/-- Embedding of `requiresMonitoringWorkflow`. -/
def requiresMonitoringWorkflow (bp : ProjectBlueprint)
    (opts : WorkflowGenerationOptions) : Bool :=
  opts.addMonitoring || decide (bp.components.length > 3)

/-- Embedding of `generateWorkflowFromBlueprint`: the main workflow, plus the
data-processing and monitoring workflows when their predicates hold. -/
def generateWorkflowFromBlueprint (bp : ProjectBlueprint)
    (reqs : List ProjectRequirement) (opts : WorkflowGenerationOptions) :
    List (List N8nNode × List N8nConnection) :=
  [buildMainWorkflow bp reqs opts] ++
  (if requiresDataProcessingWorkflow bp then [buildDataProcessingWorkflow] else []) ++
  (if requiresMonitoringWorkflow bp opts then [buildMonitoringWorkflow] else [])

/-! Section of claim-side descriptions of the main workflow's node names and
connection layout, and the lemmas relating them to the embedding. -/

/-- The display name of the trigger node, by trigger type. -/
def triggerNodeName (reqs : List ProjectRequirement) : Str :=
  match determineTriggerType reqs with
  | .webhook => ("Webhook Trigger").toList
  | .schedule => ("Schedule Trigger").toList
  | .email => ("Email Trigger").toList
  | .manual => ("Manual Trigger").toList

/-- The display name of the processing node created for one component. -/
def processingNodeName (comp : Component) : Str :=
  if containsSub comp.name (("AI").toList) then ("AI Processing").toList
  else if containsSub comp.name (("Data").toList) then ("Transform Data").toList
  else ("Process Data").toList

/-- The display names of all processing nodes of a blueprint, fallback
included. -/
def processingNodeNames (bp : ProjectBlueprint) : List Str :=
  let names := (bp.components.filter
    (fun comp => comp.type = ("processor").toList)).map processingNodeName
  if names = [] then [("Process Data").toList] else names

/-- The display name of the integration node created for one service. -/
def integrationNodeName (service : Str) : Str :=
  let s := lower service
  if containsSub s (("hubspot").toList) then ("HubSpot Integration").toList
  else if containsSub s (("salesforce").toList) then ("Salesforce Integration").toList
  else if containsSub s (("stripe").toList) then ("Stripe Integration").toList
  else if containsSub s (("database").toList) then ("Database Insert").toList
  else ("API Integration").toList

/-- The display names of all integration nodes of a blueprint, fallback
included. -/
def integrationNodeNames (bp : ProjectBlueprint) : List Str :=
  if bp.integrations = [] then [("API Integration").toList]
  else bp.integrations.map integrationNodeName

/-- The consecutive-pair connections of a linear chain of node names. -/
def chainPairs : List Str → List N8nConnection
  | [] => []
  | [_] => []
  | a :: b :: rest => ⟨a, b, 0⟩ :: chainPairs (b :: rest)

/-- The ordered names of the chained segment of the main workflow: trigger,
optional validation node, processing nodes. -/
def mainChainNames (bp : ProjectBlueprint) (reqs : List ProjectRequirement)
    (opts : WorkflowGenerationOptions) : List Str :=
  triggerNodeName reqs ::
    (if opts.securityLevel ≠ SecurityLevel.basic then [("Input Validation").toList] else []) ++
    processingNodeNames bp

theorem createTriggerNode_name (reqs : List ProjectRequirement) (c : ℕ) :
    (createTriggerNode reqs c).1.name = triggerNodeName reqs := by
  unfold createTriggerNode triggerNodeName
  cases determineTriggerType reqs <;> rfl

theorem procNodeFor_name (comp : Component) (c : ℕ) :
    (procNodeFor comp c).1.name = processingNodeName comp := by
  unfold procNodeFor processingNodeName
  split_ifs <;> rfl

theorem createProcessingNodesAux_names (comps : List Component) (c : ℕ) :
    ((createProcessingNodesAux comps c).1).map (fun n => n.name) =
      ((comps.filter (fun comp => comp.type = ("processor").toList)).map
        processingNodeName) := by
  induction comps generalizing c with
  | nil => rfl
  | cons comp rest ih =>
      unfold createProcessingNodesAux
      rw [List.filter_cons]
      by_cases h : comp.type = ("processor").toList
      · rw [if_pos h, if_pos (by simpa using h)]
        simp [ih, procNodeFor_name]
      · rw [if_neg h, if_neg (by simpa using h)]
        exact ih c

theorem createProcessingNodes_names (bp : ProjectBlueprint) (c : ℕ) :
    ((createProcessingNodes bp c).1).map (fun n => n.name) = processingNodeNames bp := by
  have h := createProcessingNodesAux_names bp.components c
  unfold createProcessingNodes processingNodeNames
  by_cases hnil : (createProcessingNodesAux bp.components c).1 = []
  · rw [hnil] at h
    simp only [List.map_nil] at h
    rw [if_pos hnil, if_pos h.symm]
    rfl
  · have hne : (bp.components.filter
        (fun comp => comp.type = ("processor").toList)).map processingNodeName ≠ [] := by
      rw [← h]
      simpa using hnil
    rw [if_neg hnil, if_neg hne]
    exact h

theorem createIntegrationNodeForService_name (service : Str) (c : ℕ) :
    (createIntegrationNodeForService service c).1.name = integrationNodeName service := by
  simp only [createIntegrationNodeForService, integrationNodeName, createHttpRequestNode]
  split_ifs <;> rfl

theorem createIntegrationNodesAux_names (services : List Str) (c : ℕ) :
    ((createIntegrationNodesAux services c).1).map (fun n => n.name) =
      services.map integrationNodeName := by
  induction services generalizing c with
  | nil => rfl
  | cons s rest ih =>
      simp [createIntegrationNodesAux, ih, createIntegrationNodeForService_name]

theorem createIntegrationNodes_names (bp : ProjectBlueprint) (c : ℕ) :
    ((createIntegrationNodes bp c).1).map (fun n => n.name) = integrationNodeNames bp := by
  have h := createIntegrationNodesAux_names bp.integrations c
  unfold createIntegrationNodes integrationNodeNames
  by_cases hnil : (createIntegrationNodesAux bp.integrations c).1 = []
  · rw [hnil] at h
    have hemp : bp.integrations = [] := by
      have := h.symm
      simpa using this
    rw [if_pos hnil, if_pos hemp]
    rfl
  · have hne : bp.integrations ≠ [] := by
      intro hemp
      apply hnil
      have := createIntegrationNodesAux_names bp.integrations c
      rw [hemp] at this ⊢
      simpa using this
    rw [if_neg hnil, if_neg hne]
    exact h

theorem appendChain_spec (names : List Str) (prev : Str) :
    appendChain prev names =
      (chainPairs (prev :: names), (prev :: names).getLastD []) := by
  induction names generalizing prev with
  | nil => rfl
  | cons nm rest ih =>
      simp only [appendChain, ih, chainPairs]
      rfl

/-- Shape of the main workflow's connection list: chain connections along
trigger → (validation) → processing nodes, then a fan of connections from the
LAST chained node to every integration node and to the output node, then the
error-handler → error-notification connection when enabled. -/
theorem buildMainWorkflow_conns (bp : ProjectBlueprint)
    (reqs : List ProjectRequirement) (opts : WorkflowGenerationOptions) :
    (buildMainWorkflow bp reqs opts).2 =
      chainPairs (mainChainNames bp reqs opts) ++
      (integrationNodeNames bp ++ [("Send Notification").toList]).map
        (fun nm => ⟨(mainChainNames bp reqs opts).getLastD [], nm, 0⟩) ++
      (if opts.includeErrorHandling then
        [⟨("Error Handler").toList, ("Error Notification").toList, 0⟩] else []) := by
  have hmap : ∀ (X : Str) (ns : List N8nNode),
      ns.map (fun n => (⟨X, n.name, 0⟩ : N8nConnection)) =
        (ns.map (fun n => n.name)).map (fun nm => (⟨X, nm, 0⟩ : N8nConnection)) := by
    intro X ns
    simp [List.map_map, Function.comp_def]
  by_cases hv : opts.securityLevel = SecurityLevel.basic
  · simp only [buildMainWorkflow, mainChainNames, hv, ne_eq, not_true_eq_false,
      if_false, List.nil_append, appendChain_spec, createTriggerNode_name,
      createProcessingNodes_names, hmap, createIntegrationNodes_names,
      List.map_append, createOutputNode, List.map_cons, List.map_nil]
    simp [List.append_assoc]
  · simp only [buildMainWorkflow, mainChainNames, hv, ne_eq, not_false_eq_true,
      if_true, appendChain_spec, createValidationNode, createTriggerNode_name,
      createProcessingNodes_names, hmap, createIntegrationNodes_names,
      List.map_append, createOutputNode, List.map_cons, List.map_nil,
      List.singleton_append, List.cons_append, List.getLastD_cons, chainPairs]
    simp [List.append_assoc, List.getLastD_cons, chainPairs]

/-! Section settling the main-chain connection claims. -/

/-- Options with everything off: no error handling, basic security. -/
def cexOptions : WorkflowGenerationOptions :=
  ⟨false, false, false, false, SecurityLevel.basic, ScalabilityPattern.simple⟩

/-- A blueprint with one generic processor component and two known
integration services. -/
def cexBlueprintC1 : ProjectBlueprint :=
  { title := ("Shop Automation").toList,
    components := [⟨("Core Processor").toList, ("processor").toList⟩],
    integrations := [("HubSpot").toList, ("Stripe").toList] }

/-- C1 counterexample: with two integration services the builder does NOT
serialize them into the chain.  The connection list of the main workflow is
not the consecutive-pair chain over the appended node order — instead the
last processing node ("Process Data") carries three outgoing connections
(both integration nodes and the output node fan out from it), because the
integration loop never advances `previousNodeName`. -/
theorem buildMainWorkflow_not_linear_chain :
    ((buildMainWorkflow cexBlueprintC1 [] cexOptions).2.countP
        (fun e => e.source = ("Process Data").toList)) = 3 ∧
    (buildMainWorkflow cexBlueprintC1 [] cexOptions).2 ≠
      chainPairs (mainChainNames cexBlueprintC1 [] cexOptions ++
        integrationNodeNames cexBlueprintC1 ++ [("Send Notification").toList]) := by
  constructor
  · decide
  · decide

/-- C1 amended: the trigger → (validation) → processing segment is a linear
chain — each of those nodes is wired from the immediately preceding
main-chain node on port 0 — but every integration node AND the output node is
wired from the same last chained node: appended integration nodes fan out in
parallel from that node (and the output node is not wired from the last
integration node), they are never serialized into sequential chain edges. -/
theorem buildMainWorkflow_chain_then_fanout :
    ∀ (bp : ProjectBlueprint) (reqs : List ProjectRequirement)
      (opts : WorkflowGenerationOptions),
      (buildMainWorkflow bp reqs opts).2 =
        chainPairs (mainChainNames bp reqs opts) ++
        (integrationNodeNames bp ++ [("Send Notification").toList]).map
          (fun nm => ⟨(mainChainNames bp reqs opts).getLastD [], nm, 0⟩) ++
        (if opts.includeErrorHandling then
          [⟨("Error Handler").toList, ("Error Notification").toList, 0⟩] else []) :=
  buildMainWorkflow_conns

/-! Section on the error-handling subgraph: name inventories, reachability
along connections, and the isolation lemmas. -/

theorem chainPairs_mem (l : List Str) (e : N8nConnection) (he : e ∈ chainPairs l) :
    e.source ∈ l ∧ e.target ∈ l := by
  induction l with
  | nil => simp [chainPairs] at he
  | cons a rest ih =>
      cases rest with
      | nil => simp [chainPairs] at he
      | cons b rest' =>
          simp only [chainPairs, List.mem_cons] at he
          rcases he with rfl | he
          · simp
          · have h := ih he
            exact ⟨List.mem_cons_of_mem a h.1, List.mem_cons_of_mem a h.2⟩

theorem triggerNodeName_cases (reqs : List ProjectRequirement) :
    triggerNodeName reqs = ("Webhook Trigger").toList ∨
    triggerNodeName reqs = ("Schedule Trigger").toList ∨
    triggerNodeName reqs = ("Email Trigger").toList ∨
    triggerNodeName reqs = ("Manual Trigger").toList := by
  unfold triggerNodeName
  cases determineTriggerType reqs <;> simp

theorem processingNodeName_cases (comp : Component) :
    processingNodeName comp = ("AI Processing").toList ∨
    processingNodeName comp = ("Transform Data").toList ∨
    processingNodeName comp = ("Process Data").toList := by
  unfold processingNodeName
  split_ifs <;> simp

theorem integrationNodeName_cases (s : Str) :
    integrationNodeName s = ("HubSpot Integration").toList ∨
    integrationNodeName s = ("Salesforce Integration").toList ∨
    integrationNodeName s = ("Stripe Integration").toList ∨
    integrationNodeName s = ("Database Insert").toList ∨
    integrationNodeName s = ("API Integration").toList := by
  simp only [integrationNodeName]
  split_ifs <;> simp

theorem mainChainNames_ne_err (bp : ProjectBlueprint) (reqs : List ProjectRequirement)
    (opts : WorkflowGenerationOptions) :
    ∀ x ∈ mainChainNames bp reqs opts,
      x ≠ ("Error Handler").toList ∧ x ≠ ("Error Notification").toList := by
  intro x hx
  simp only [mainChainNames, List.mem_cons, List.mem_append] at hx
  rcases hx with (rfl | hx) | hx
  · rcases triggerNodeName_cases reqs with h | h | h | h <;> rw [h] <;>
      exact ⟨by decide, by decide⟩
  · by_cases hv : opts.securityLevel ≠ SecurityLevel.basic
    · simp only [if_pos hv, List.mem_singleton] at hx
      rw [hx]
      exact ⟨by decide, by decide⟩
    · simp [if_neg hv] at hx
  · unfold processingNodeNames at hx
    by_cases hnil : (bp.components.filter
        (fun comp => comp.type = ("processor").toList)).map processingNodeName = []
    · rw [if_pos hnil] at hx
      simp only [List.mem_singleton] at hx
      rw [hx]
      exact ⟨by decide, by decide⟩
    · rw [if_neg hnil] at hx
      obtain ⟨comp, _, rfl⟩ := List.mem_map.mp hx
      rcases processingNodeName_cases comp with h | h | h <;> rw [h] <;>
        exact ⟨by decide, by decide⟩

theorem integrationNodeNames_ne_err (bp : ProjectBlueprint) :
    ∀ x ∈ integrationNodeNames bp,
      x ≠ ("Error Handler").toList ∧ x ≠ ("Error Notification").toList := by
  intro x hx
  unfold integrationNodeNames at hx
  by_cases hbp : bp.integrations = []
  · rw [if_pos hbp] at hx
    simp only [List.mem_singleton] at hx
    rw [hx]
    exact ⟨by decide, by decide⟩
  · rw [if_neg hbp] at hx
    obtain ⟨s, _, rfl⟩ := List.mem_map.mp hx
    rcases integrationNodeName_cases s with h | h | h | h | h <;> rw [h] <;>
      exact ⟨by decide, by decide⟩

theorem triggerNodeName_ne_err (reqs : List ProjectRequirement) :
    triggerNodeName reqs ≠ ("Error Handler").toList ∧
    triggerNodeName reqs ≠ ("Error Notification").toList := by
  rcases triggerNodeName_cases reqs with h | h | h | h <;> rw [h] <;>
    exact ⟨by decide, by decide⟩

/-- Every connection of the main workflow either avoids the error nodes as
target, or is the single error-handler → error-notification connection. -/
theorem buildMainWorkflow_conn_targets (bp : ProjectBlueprint)
    (reqs : List ProjectRequirement) (opts : WorkflowGenerationOptions) :
    ∀ e ∈ (buildMainWorkflow bp reqs opts).2,
      e.target ≠ ("Error Handler").toList ∧
      (e.target = ("Error Notification").toList →
        e.source = ("Error Handler").toList) := by
  intro e he
  rw [buildMainWorkflow_conns] at he
  simp only [List.mem_append] at he
  rcases he with (he | he) | he
  · have hmem := chainPairs_mem _ e he
    have h2 := mainChainNames_ne_err bp reqs opts e.target hmem.2
    exact ⟨h2.1, fun ht => absurd ht h2.2⟩
  · simp only [List.mem_map, List.mem_append, List.mem_singleton] at he
    obtain ⟨nm, hnm, rfl⟩ := he
    rcases hnm with hnm | rfl
    · have h2 := integrationNodeNames_ne_err bp nm hnm
      exact ⟨h2.1, fun ht => absurd ht h2.2⟩
    · refine ⟨?_, ?_⟩
      · show ("Send Notification").toList ≠ ("Error Handler").toList
        decide
      · intro ht
        have hts : ("Send Notification").toList = ("Error Notification").toList := ht
        exact absurd hts (by decide)
  · by_cases hf : opts.includeErrorHandling
    · rw [if_pos hf] at he
      simp only [List.mem_singleton] at he
      rw [he]
      exact ⟨by decide, fun _ => rfl⟩
    · simp [if_neg hf] at he

/-- Reachability along the pushed connection entries. -/
def Reaches (conns : List N8nConnection) (a b : Str) : Prop :=
  Relation.ReflTransGen (fun x y => ∃ e ∈ conns, e.source = x ∧ e.target = y) a b

theorem not_reaches_of_no_target (conns : List N8nConnection) (a b : Str)
    (hne : a ≠ b) (h : ∀ e ∈ conns, e.target ≠ b) : ¬ Reaches conns a b := by
  intro hr
  rcases Relation.ReflTransGen.cases_tail hr with heq | ⟨c, _, hcb⟩
  · exact hne heq.symm
  · obtain ⟨e, he, _, htgt⟩ := hcb
    exact h e he htgt

theorem not_reaches_two_step (conns : List N8nConnection) (a x y : Str)
    (hay : a ≠ y) (hx : ¬ Reaches conns a x)
    (h : ∀ e ∈ conns, e.target = y → e.source = x) : ¬ Reaches conns a y := by
  intro hr
  rcases Relation.ReflTransGen.cases_tail hr with heq | ⟨c, hac, hcb⟩
  · exact hay heq.symm
  · obtain ⟨e, he, hsrc, htgt⟩ := hcb
    have hc : c = x := by rw [← hsrc, h e he htgt]
    exact hx (hc ▸ hac)

/-- Shape of the main workflow's node-name list. -/
theorem buildMainWorkflow_node_names (bp : ProjectBlueprint)
    (reqs : List ProjectRequirement) (opts : WorkflowGenerationOptions) :
    (buildMainWorkflow bp reqs opts).1.map (fun n => n.name) =
      mainChainNames bp reqs opts ++ integrationNodeNames bp ++
      [("Send Notification").toList] ++
      (if opts.includeErrorHandling then
        [("Error Handler").toList, ("Error Notification").toList] else []) := by
  by_cases hv : opts.securityLevel = SecurityLevel.basic <;>
    by_cases hf : opts.includeErrorHandling <;>
      simp [buildMainWorkflow, mainChainNames, hv, hf, createTriggerNode_name,
        createProcessingNodes_names, createIntegrationNodes_names, createValidationNode,
        createOutputNode, createErrorHandlingNodes, List.append_assoc]

/-- The node-id counter value after the output node has been created. -/
def mainCounterAfterOutput (bp : ProjectBlueprint) (reqs : List ProjectRequirement)
    (opts : WorkflowGenerationOptions) : ℕ :=
  (createOutputNode (createIntegrationNodes bp (createProcessingNodes bp
    (if opts.securityLevel ≠ SecurityLevel.basic
      then (createValidationNode (createTriggerNode reqs 1).2).2
      else (createTriggerNode reqs 1).2)).2).2).2

/-- C8: iff `includeErrorHandling` is set, the builder appends exactly the
error-handler and error-notification nodes with exactly one connection
between them (handler → notification); no connection whose source is not the
error handler targets either error node, and neither error node is reachable
from the trigger along the workflow's connections.  With the flag off,
neither error node exists. -/
theorem errorHandling_subgraph_isolated :
    ∀ (bp : ProjectBlueprint) (reqs : List ProjectRequirement)
      (opts : WorkflowGenerationOptions),
      (opts.includeErrorHandling = true →
        (∃ k, (buildMainWorkflow bp reqs opts).1 =
          (buildMainWorkflow bp reqs { opts with includeErrorHandling := false }).1 ++
          [⟨k, ("Error Handler").toList, ("n8n-nodes-base.function").toList⟩,
           ⟨k + 1, ("Error Notification").toList, ("n8n-nodes-base.emailSend").toList⟩]) ∧
        (buildMainWorkflow bp reqs opts).2 =
          (buildMainWorkflow bp reqs { opts with includeErrorHandling := false }).2 ++
          [⟨("Error Handler").toList, ("Error Notification").toList, 0⟩] ∧
        (∀ e ∈ (buildMainWorkflow bp reqs opts).2,
          e.source ≠ ("Error Handler").toList →
            e.target ≠ ("Error Handler").toList ∧
            e.target ≠ ("Error Notification").toList) ∧
        ¬ Reaches (buildMainWorkflow bp reqs opts).2 (triggerNodeName reqs)
            (("Error Handler").toList) ∧
        ¬ Reaches (buildMainWorkflow bp reqs opts).2 (triggerNodeName reqs)
            (("Error Notification").toList)) ∧
      (opts.includeErrorHandling = false →
        ("Error Handler").toList ∉
          (buildMainWorkflow bp reqs opts).1.map (fun n => n.name) ∧
        ("Error Notification").toList ∉
          (buildMainWorkflow bp reqs opts).1.map (fun n => n.name)) := by
  intro bp reqs opts
  rcases opts with ⟨ieh, am, er, il, sl, sp⟩
  constructor
  · intro hflag
    subst hflag
    refine ⟨⟨mainCounterAfterOutput bp reqs ⟨true, am, er, il, sl, sp⟩, ?_⟩,
      ?_, ?_, ?_, ?_⟩
    · by_cases hv : sl = SecurityLevel.basic <;>
        simp [buildMainWorkflow, mainCounterAfterOutput, createErrorHandlingNodes, hv,
          List.append_assoc]
    · rw [buildMainWorkflow_conns, buildMainWorkflow_conns]
      simp [mainChainNames, List.append_assoc]
    · exact fun e he hsrc =>
        ⟨(buildMainWorkflow_conn_targets _ _ _ e he).1,
         fun ht => absurd ((buildMainWorkflow_conn_targets _ _ _ e he).2 ht) hsrc⟩
    · exact not_reaches_of_no_target _ _ _ (triggerNodeName_ne_err reqs).1
        (fun e he => (buildMainWorkflow_conn_targets _ _ _ e he).1)
    · exact not_reaches_two_step _ _ _ _ (triggerNodeName_ne_err reqs).2
        (not_reaches_of_no_target _ _ _ (triggerNodeName_ne_err reqs).1
          (fun e he => (buildMainWorkflow_conn_targets _ _ _ e he).1))
        (fun e he => (buildMainWorkflow_conn_targets _ _ _ e he).2)
  · intro hflag
    subst hflag
    constructor <;>
    · rw [buildMainWorkflow_node_names]
      intro hmem
      simp only [List.mem_append, List.mem_singleton, Bool.false_eq_true, if_false,
        List.not_mem_nil, or_false] at hmem
      rcases hmem with (h | h) | h
      · have hne := mainChainNames_ne_err _ _ _ _ h
        first
        | exact hne.1 rfl
        | exact hne.2 rfl
      · have hne := integrationNodeNames_ne_err _ _ h
        first
        | exact hne.1 rfl
        | exact hne.2 rfl
      · exact absurd h (by decide)

/-- The counterexample options with error handling enabled. -/
def cexOptionsErr : WorkflowGenerationOptions :=
  { cexOptions with includeErrorHandling := true }

/-- C8 witness: the theorem applied at the concrete blueprint with the flag
on (connection equation and unreachability) and off (no error nodes). -/
theorem errorHandling_subgraph_isolated_witness :
    (buildMainWorkflow cexBlueprintC1 [] cexOptionsErr).2 =
      (buildMainWorkflow cexBlueprintC1 []
        { cexOptionsErr with includeErrorHandling := false }).2 ++
      [⟨("Error Handler").toList, ("Error Notification").toList, 0⟩] ∧
    ¬ Reaches (buildMainWorkflow cexBlueprintC1 [] cexOptionsErr).2
        (triggerNodeName []) (("Error Handler").toList) ∧
    ("Error Handler").toList ∉
      (buildMainWorkflow cexBlueprintC1 [] cexOptions).1.map (fun n => n.name) :=
  ⟨((errorHandling_subgraph_isolated cexBlueprintC1 [] cexOptionsErr).1 rfl).2.1,
   ((errorHandling_subgraph_isolated cexBlueprintC1 [] cexOptionsErr).1 rfl).2.2.2.1,
   ((errorHandling_subgraph_isolated cexBlueprintC1 [] cexOptions).2 rfl).1⟩

/-! Section settling the fallback-totality claim. -/

theorem createProcessingNodesAux_no_proc (comps : List Component) (c : ℕ)
    (h : ∀ comp ∈ comps, comp.type ≠ ("processor").toList) :
    createProcessingNodesAux comps c = ([], c) := by
  induction comps with
  | nil => rfl
  | cons comp rest ih =>
      unfold createProcessingNodesAux
      rw [if_neg (h comp (List.mem_cons_self comp rest))]
      exact ih (fun x hx => h x (List.mem_cons_of_mem comp hx))

/-- C9: graph construction is total with documented fallbacks — requirement
text matching no trigger keyword yields the manual trigger; a blueprint with
no processor component yields exactly one generic processing node; an empty
integration list yields exactly one generic HTTP-request node, and an unknown
service also resolves to the HTTP-request node type; the output/notification
node is always appended; and on zero requirements the analysis yields domain
"general" and complexity "simple".  (In the embedding every builder function
is a total Lean function, mirroring the absence of any error path.) -/
theorem graphBuilder_total_fallbacks :
    (∀ reqs : List ProjectRequirement,
        containsSub (reqContent reqs) (("webhook").toList) = false →
        containsSub (reqContent reqs) (("api").toList) = false →
        containsSub (reqContent reqs) (("real-time").toList) = false →
        containsSub (reqContent reqs) (("schedule").toList) = false →
        containsSub (reqContent reqs) (("daily").toList) = false →
        containsSub (reqContent reqs) (("hourly").toList) = false →
        containsSub (reqContent reqs) (("email").toList) = false →
        containsSub (reqContent reqs) (("imap").toList) = false →
        determineTriggerType reqs = TriggerType.manual ∧
        (createTriggerNode reqs 1).1.name = ("Manual Trigger").toList) ∧
    (∀ (bp : ProjectBlueprint) (c : ℕ),
        (∀ comp ∈ bp.components, comp.type ≠ ("processor").toList) →
        (createProcessingNodes bp c).1 =
          [⟨c, ("Process Data").toList, ("n8n-nodes-base.function").toList⟩]) ∧
    (∀ (bp : ProjectBlueprint) (c : ℕ), bp.integrations = [] →
        (createIntegrationNodes bp c).1 =
          [⟨c, ("API Integration").toList, ("n8n-nodes-base.httpRequest").toList⟩]) ∧
    (∀ (s : Str) (c : ℕ),
        containsSub (lower s) (("hubspot").toList) = false →
        containsSub (lower s) (("salesforce").toList) = false →
        containsSub (lower s) (("stripe").toList) = false →
        containsSub (lower s) (("database").toList) = false →
        (createIntegrationNodeForService s c).1.type =
          ("n8n-nodes-base.httpRequest").toList) ∧
    (∀ bp reqs opts, ∃ n ∈ (buildMainWorkflow bp reqs opts).1,
        n.name = ("Send Notification").toList ∧
        n.type = ("n8n-nodes-base.emailSend").toList) ∧
    (identifyDomain [] = ("general").toList ∧ assessComplexity [] = Complexity.simple) := by
  refine ⟨?_, ?_, ?_, ?_, ?_, by decide, by decide⟩
  · intro reqs h1 h2 h3 h4 h5 h6 h7 h8
    have hdet : determineTriggerType reqs = TriggerType.manual := by
      unfold determineTriggerType
      rw [if_neg (by simp_all), if_neg (by simp_all), if_neg (by simp_all)]
    exact ⟨hdet, by simp [createTriggerNode, hdet]⟩
  · intro bp c h
    simp [createProcessingNodes, createProcessingNodesAux_no_proc bp.components c h]
  · intro bp c h
    simp [createIntegrationNodes, h, createIntegrationNodesAux]
  · intro s c h1 h2 h3 h4
    simp only [createIntegrationNodeForService, createHttpRequestNode]
    rw [if_neg (by simp_all), if_neg (by simp_all), if_neg (by simp_all),
      if_neg (by simp_all)]
  · intro bp reqs opts
    exact ⟨(createOutputNode (createIntegrationNodes bp (createProcessingNodes bp
        (if opts.securityLevel ≠ SecurityLevel.basic
          then (createValidationNode (createTriggerNode reqs 1).2).2
          else (createTriggerNode reqs 1).2)).2).2).1,
      by simp [buildMainWorkflow], rfl, rfl⟩

/-- C9 witness: the fallback clauses applied at concrete inputs — keyword-free
requirement text, a processor-free blueprint, an integration-free blueprint,
and an unknown service name. -/
theorem graphBuilder_total_fallbacks_witness :
    determineTriggerType [⟨.businessProcess, ("automate invoices").toList⟩] =
      TriggerType.manual ∧
    (createProcessingNodes
        ⟨("T").toList, [⟨("Email Notifier").toList, ("notifier").toList⟩], []⟩ 2).1 =
      [⟨2, ("Process Data").toList, ("n8n-nodes-base.function").toList⟩] ∧
    (createIntegrationNodes ⟨("T").toList, [], []⟩ 3).1 =
      [⟨3, ("API Integration").toList, ("n8n-nodes-base.httpRequest").toList⟩] ∧
    (createIntegrationNodeForService (("SendGrid").toList) 4).1.type =
      ("n8n-nodes-base.httpRequest").toList :=
  ⟨(graphBuilder_total_fallbacks.1 [⟨.businessProcess, ("automate invoices").toList⟩]
      (by decide) (by decide) (by decide) (by decide) (by decide) (by decide)
      (by decide) (by decide)).1,
   graphBuilder_total_fallbacks.2.1
      ⟨("T").toList, [⟨("Email Notifier").toList, ("notifier").toList⟩], []⟩ 2
      (by decide),
   graphBuilder_total_fallbacks.2.2.1 ⟨("T").toList, [], []⟩ 3 rfl,
   graphBuilder_total_fallbacks.2.2.2.1 (("SendGrid").toList) 4
      (by decide) (by decide) (by decide) (by decide)⟩

/-! Section on node-id distinctness: ids allocated by the strictly increasing
counter within one workflow build are pairwise distinct. -/

/-- All ids of `ns` lie in `[lo, hi)` and are strictly increasing. -/
def IdsBetween (ns : List N8nNode) (lo hi : ℕ) : Prop :=
  lo ≤ hi ∧ (∀ n ∈ ns, lo ≤ n.id ∧ n.id < hi) ∧
  (ns.map (fun n => n.id)).Pairwise (· < ·)

theorem idsBetween_nil (c : ℕ) : IdsBetween [] c c :=
  ⟨le_rfl, by simp, by simp⟩

theorem idsBetween_single (n : N8nNode) (lo hi : ℕ) (h1 : lo ≤ n.id)
    (h2 : n.id < hi) : IdsBetween [n] lo hi :=
  ⟨le_of_lt (lt_of_le_of_lt h1 h2), by simpa using ⟨h1, h2⟩, by simp⟩

theorem idsBetween_append {a b : List N8nNode} {lo mid hi : ℕ}
    (ha : IdsBetween a lo mid) (hb : IdsBetween b mid hi) :
    IdsBetween (a ++ b) lo hi := by
  obtain ⟨h1, h2, h3⟩ := ha
  obtain ⟨h1', h2', h3'⟩ := hb
  refine ⟨le_trans h1 h1', ?_, ?_⟩
  · intro n hn
    rcases List.mem_append.mp hn with h | h
    · exact ⟨(h2 n h).1, lt_of_lt_of_le (h2 n h).2 h1'⟩
    · exact ⟨le_trans h1 (h2' n h).1, (h2' n h).2⟩
  · rw [List.map_append, List.pairwise_append]
    refine ⟨h3, h3', ?_⟩
    intro x hx y hy
    obtain ⟨nx, hnx, rfl⟩ := List.mem_map.mp hx
    obtain ⟨ny, hny, rfl⟩ := List.mem_map.mp hy
    exact lt_of_lt_of_le (h2 nx hnx).2 (h2' ny hny).1

theorem createTriggerNode_ids (reqs : List ProjectRequirement) (c : ℕ) :
    (createTriggerNode reqs c).1.id = c ∧ (createTriggerNode reqs c).2 = c + 1 := by
  unfold createTriggerNode
  cases determineTriggerType reqs <;> exact ⟨rfl, rfl⟩

theorem procNodeFor_ids (comp : Component) (c : ℕ) :
    IdsBetween [(procNodeFor comp c).1] c (procNodeFor comp c).2 := by
  unfold procNodeFor
  split_ifs <;> exact idsBetween_single _ _ _ le_rfl (by dsimp; omega)

theorem createProcessingNodesAux_ids (comps : List Component) (c : ℕ) :
    IdsBetween (createProcessingNodesAux comps c).1 c
      (createProcessingNodesAux comps c).2 := by
  induction comps generalizing c with
  | nil => exact idsBetween_nil c
  | cons comp rest ih =>
      unfold createProcessingNodesAux
      by_cases h : comp.type = ("processor").toList
      · rw [if_pos h]
        have := idsBetween_append (procNodeFor_ids comp c) (ih (procNodeFor comp c).2)
        simpa using this
      · rw [if_neg h]
        exact ih c

theorem createProcessingNodes_ids (bp : ProjectBlueprint) (c : ℕ) :
    IdsBetween (createProcessingNodes bp c).1 c (createProcessingNodes bp c).2 := by
  simp only [createProcessingNodes]
  by_cases hnil : (createProcessingNodesAux bp.components c).1 = []
  · rw [if_pos hnil]
    exact idsBetween_single _ _ _ (createProcessingNodesAux_ids bp.components c).1
      (Nat.lt_succ_self _)
  · rw [if_neg hnil]
    exact createProcessingNodesAux_ids bp.components c

theorem createIntegrationNodeForService_ids (s : Str) (c : ℕ) :
    IdsBetween [(createIntegrationNodeForService s c).1] c
      (createIntegrationNodeForService s c).2 := by
  simp only [createIntegrationNodeForService, createHttpRequestNode]
  split_ifs <;> exact idsBetween_single _ _ _ le_rfl (by dsimp; omega)

theorem createIntegrationNodesAux_ids (services : List Str) (c : ℕ) :
    IdsBetween (createIntegrationNodesAux services c).1 c
      (createIntegrationNodesAux services c).2 := by
  induction services generalizing c with
  | nil => exact idsBetween_nil c
  | cons s rest ih =>
      unfold createIntegrationNodesAux
      have := idsBetween_append (createIntegrationNodeForService_ids s c)
        (ih (createIntegrationNodeForService s c).2)
      simpa using this

theorem createIntegrationNodes_ids (bp : ProjectBlueprint) (c : ℕ) :
    IdsBetween (createIntegrationNodes bp c).1 c (createIntegrationNodes bp c).2 := by
  simp only [createIntegrationNodes]
  by_cases hnil : (createIntegrationNodesAux bp.integrations c).1 = []
  · rw [if_pos hnil]
    exact idsBetween_single _ _ _ (createIntegrationNodesAux_ids bp.integrations c).1
      (Nat.lt_succ_self _)
  · rw [if_neg hnil]
    exact createIntegrationNodesAux_ids bp.integrations c

theorem createErrorHandlingNodes_ids (c : ℕ) :
    IdsBetween (createErrorHandlingNodes c).1 c (createErrorHandlingNodes c).2 := by
  refine ⟨by simp [createErrorHandlingNodes], ?_, ?_⟩
  · intro n hn
    simp only [createErrorHandlingNodes, List.mem_cons, List.mem_singleton,
      List.not_mem_nil, or_false] at hn
    rcases hn with rfl | rfl <;> simp [createErrorHandlingNodes]
  · simp [createErrorHandlingNodes]

/-- The counter value after the optional validation node. -/
def mainCounterAfterVal (reqs : List ProjectRequirement)
    (opts : WorkflowGenerationOptions) : ℕ :=
  if opts.securityLevel ≠ SecurityLevel.basic
    then (createValidationNode (createTriggerNode reqs 1).2).2
    else (createTriggerNode reqs 1).2

/-- Decomposition of the main workflow's node list into its creator
segments. -/
theorem buildMainWorkflow_nodes_decomp (bp : ProjectBlueprint)
    (reqs : List ProjectRequirement) (opts : WorkflowGenerationOptions) :
    (buildMainWorkflow bp reqs opts).1 =
      [(createTriggerNode reqs 1).1] ++
      (if opts.securityLevel ≠ SecurityLevel.basic
        then [(createValidationNode (createTriggerNode reqs 1).2).1] else []) ++
      (createProcessingNodes bp (mainCounterAfterVal reqs opts)).1 ++
      (createIntegrationNodes bp
        (createProcessingNodes bp (mainCounterAfterVal reqs opts)).2).1 ++
      [(createOutputNode (createIntegrationNodes bp
        (createProcessingNodes bp (mainCounterAfterVal reqs opts)).2).2).1] ++
      (if opts.includeErrorHandling then
        (createErrorHandlingNodes (mainCounterAfterOutput bp reqs opts)).1 else []) := by
  by_cases hv : opts.securityLevel = SecurityLevel.basic <;>
    simp [buildMainWorkflow, mainCounterAfterVal, mainCounterAfterOutput, hv,
      List.append_assoc]

theorem buildMainWorkflow_ids (bp : ProjectBlueprint)
    (reqs : List ProjectRequirement) (opts : WorkflowGenerationOptions) :
    ∃ hi, IdsBetween (buildMainWorkflow bp reqs opts).1 1 hi := by
  obtain ⟨hid, hsnd⟩ := createTriggerNode_ids reqs 1
  have ht : IdsBetween [(createTriggerNode reqs 1).1] 1 (createTriggerNode reqs 1).2 := by
    refine idsBetween_single _ _ _ (le_of_eq hid.symm) ?_
    rw [hid, hsnd]
    omega
  have hV : IdsBetween
      (if opts.securityLevel ≠ SecurityLevel.basic
        then [(createValidationNode (createTriggerNode reqs 1).2).1] else [])
      (createTriggerNode reqs 1).2 (mainCounterAfterVal reqs opts) := by
    by_cases hv : opts.securityLevel = SecurityLevel.basic
    · simp only [mainCounterAfterVal, hv, ne_eq, not_true_eq_false, if_false]
      exact idsBetween_nil _
    · simp only [mainCounterAfterVal, ne_eq, hv, not_false_eq_true, if_true]
      exact idsBetween_single _ _ _ le_rfl (Nat.lt_succ_self _)
  have hP := createProcessingNodes_ids bp (mainCounterAfterVal reqs opts)
  have hI := createIntegrationNodes_ids bp
    (createProcessingNodes bp (mainCounterAfterVal reqs opts)).2
  have hO : IdsBetween
      [(createOutputNode (createIntegrationNodes bp
        (createProcessingNodes bp (mainCounterAfterVal reqs opts)).2).2).1]
      (createIntegrationNodes bp
        (createProcessingNodes bp (mainCounterAfterVal reqs opts)).2).2
      (createOutputNode (createIntegrationNodes bp
        (createProcessingNodes bp (mainCounterAfterVal reqs opts)).2).2).2 :=
    idsBetween_single _ _ _ le_rfl (Nat.lt_succ_self _)
  have hE : IdsBetween
      (if opts.includeErrorHandling then
        (createErrorHandlingNodes (mainCounterAfterOutput bp reqs opts)).1 else [])
      (mainCounterAfterOutput bp reqs opts)
      (if opts.includeErrorHandling then mainCounterAfterOutput bp reqs opts + 2
        else mainCounterAfterOutput bp reqs opts) := by
    by_cases hf : opts.includeErrorHandling
    · simp only [hf, if_true]
      exact createErrorHandlingNodes_ids _
    · simp only [hf, if_false]
      exact idsBetween_nil _
  have hOut : (createOutputNode (createIntegrationNodes bp
      (createProcessingNodes bp (mainCounterAfterVal reqs opts)).2).2).2 =
      mainCounterAfterOutput bp reqs opts := by
    simp [createOutputNode, mainCounterAfterOutput, mainCounterAfterVal]
  rw [buildMainWorkflow_nodes_decomp]
  refine ⟨_, idsBetween_append (idsBetween_append (idsBetween_append
    (idsBetween_append (idsBetween_append ht hV) hP) hI) hO) (hOut ▸ hE)⟩

theorem nodup_of_idsBetween (ns : List N8nNode) (lo hi : ℕ)
    (h : IdsBetween ns lo hi) : (ns.map (fun n => n.id)).Nodup :=
  h.2.2.imp (fun hlt => Nat.ne_of_lt hlt)

/-- C10: within every single workflow returned by
`generateWorkflowFromBlueprint` — the main workflow, and the data-processing
and monitoring workflows when built — node ids are pairwise distinct: the
counter is reset at the start of each build and strictly increments on every
allocation. -/
theorem workflow_node_ids_distinct :
    ∀ (bp : ProjectBlueprint) (reqs : List ProjectRequirement)
      (opts : WorkflowGenerationOptions) (wf : List N8nNode × List N8nConnection),
      wf ∈ generateWorkflowFromBlueprint bp reqs opts →
      ((wf.1.map (fun n => n.id)).Nodup) := by
  intro bp reqs opts wf hwf
  simp only [generateWorkflowFromBlueprint, List.mem_append,
    List.mem_singleton] at hwf
  rcases hwf with (rfl | hwf) | hwf
  · obtain ⟨hi, h⟩ := buildMainWorkflow_ids bp reqs opts
    exact nodup_of_idsBetween _ _ _ h
  · by_cases hd : requiresDataProcessingWorkflow bp
    · rw [if_pos hd] at hwf
      simp only [List.mem_singleton] at hwf
      rw [hwf]
      decide
    · simp [if_neg hd] at hwf
  · by_cases hm : requiresMonitoringWorkflow bp opts
    · rw [if_pos hm] at hwf
      simp only [List.mem_singleton] at hwf
      rw [hwf]
      decide
    · simp [if_neg hm] at hwf

/-- C10 witness: the theorem applied to the main workflow of the concrete
blueprint, the membership hypothesis discharged by evaluation. -/
theorem workflow_node_ids_distinct_witness :
    (((buildMainWorkflow cexBlueprintC1 [] cexOptions).1).map (fun n => n.id)).Nodup :=
  workflow_node_ids_distinct cexBlueprintC1 [] cexOptions
    (buildMainWorkflow cexBlueprintC1 [] cexOptions)
    (by simp [generateWorkflowFromBlueprint])

end AIEng
